import Mathlib

/-!
Shallow embedding of the DevOps repository-sync daemon (`src/main.rs`) and
verification of the specification's claims about it.

The program shells out to `git` and queries a remote HTTP API; every external
interaction is modelled by an explicit environment value describing the
outcome of each invocation, so that each Rust function becomes a pure Lean
function of its environment.  Each function additionally returns the ordered
list of external invocations it performed (the trace) and the structured log
events it emitted, so that ordering and logging claims can be stated.
-/

namespace RepoSync

/-- One commit object of the remote API response (the `commitId` field of an
element of the `value` array), `src/main.rs` lines 34-38. -/
structure Commit where
  commit_id : String
deriving DecidableEq

/-- Deserialized remote API response: a JSON object with a `value` array,
`src/main.rs` lines 28-31. -/
structure ApiResponse where
  value : List Commit
deriving DecidableEq

/-- Result of a Rust computation that can return a value, return an `Err`
(propagated by the `?` operator), or terminate the thread by panicking. -/
inductive RunResult (α : Type)
  | ok (a : α)
  | error (e : String)
  | panicked (msg : String)
deriving DecidableEq

/-- The configuration record read from `config.toml`, `src/main.rs` lines 16-25. -/
structure AppConfig where
  repo_path : String
  organization : String
  project : String
  repository : String
  target_branch : String
  pat : String
  check_interval_seconds : Nat
deriving DecidableEq

/-- The commit-listing URL built by `get_latest_commit`, `src/main.rs` line 65. -/
def api_url (c : AppConfig) : String :=
  "https://dev.azure.com/" ++ c.organization ++ "/" ++ c.project ++
    "/_apis/git/repositories/" ++ c.repository ++ "/commits?branchName=" ++
    c.target_branch ++ "&searchCriteria.itemVersion.version=" ++ c.target_branch ++
    "&searchCriteria.itemVersion.versionType=branch"

/-- The authenticated remote URL built by `pull_changes`, `src/main.rs` lines 103-106. -/
def url_with_credentials (c : AppConfig) : String :=
  "https://" ++ c.organization ++ ":" ++ c.pat ++ "@dev.azure.com/" ++
    c.organization ++ "/" ++ c.project ++ "/_git/" ++ c.repository

/-- The fetch refspec, `src/main.rs` line 109. -/
def fetch_refspec : String := "+refs/heads/*:refs/remotes/origin/*"

/-- Environment for one remote query: the outcome of the HTTP send, of reading
the response body, and of the JSON deserialization, corresponding to the three
fallible steps of `get_latest_commit` (`src/main.rs` lines 63-83). -/
inductive RemoteEnv
  | sendErr (e : String)
  | textErr (e : String)
  | parseErr (e : String)
  | parsed (r : ApiResponse)
deriving DecidableEq

/-- Embeds `get_latest_commit` (`src/main.rs` lines 63-83): on a successfully
parsed response it returns `value[0].commit_id`; Rust's index operator panics
when the `value` array is empty. -/
def get_latest_commit : RemoteEnv → RunResult String
  | .sendErr e => .error e
  | .textErr e => .error e
  | .parseErr e => .error e
  | .parsed r =>
    match r.value with
    | [] => .panicked "index out of bounds: the len is 0 but the index is 0"
    | c :: _ => .ok c.commit_id

/-- Captured standard output of a completed process, which may or may not be
valid UTF-8 (`String::from_utf8` fails on the latter). -/
inductive Bytes
  | valid (s : String)
  | invalid
deriving DecidableEq

/-- The `std::process::Output` fields that `get_local_commit` can observe:
the exit status and the captured standard output. -/
structure CmdOutput where
  success : Bool
  stdout : Bytes
deriving DecidableEq

/-- Environment for one `git rev-parse HEAD` invocation: either the process
could not be launched (`Command::output` returns `Err`) or it ran to
completion with the given exit status and output. -/
inductive LocalEnv
  | spawnErr (e : String)
  | ran (o : CmdOutput)
deriving DecidableEq

/-- Embeds Rust's `str::trim`: removes leading and trailing whitespace
characters (whitespace classified by `Char.isWhitespace`). -/
def rustTrim (s : String) : String :=
  ⟨((s.data.dropWhile Char.isWhitespace).reverse.dropWhile Char.isWhitespace).reverse⟩

/-- Embeds `get_local_commit` (`src/main.rs` lines 86-98): runs
`git -C <repo> rev-parse HEAD`, converts the captured stdout from UTF-8 and
trims it.  The exit status of the process is never examined. -/
def get_local_commit : LocalEnv → Except String String
  | .spawnErr e => .error e
  | .ran o =>
    match o.stdout with
    | .invalid => .error "invalid utf-8 sequence"
    | .valid s => .ok (rustTrim s)

/-- Outcome of a `Command::status()` invocation: spawn failure or an exit
status (`success` is the result of `ExitStatus::success`). -/
inductive StatusRes
  | spawnErr (e : String)
  | exit (success : Bool)
deriving DecidableEq

/-- Outcome of a `Command::output()` invocation: spawn failure or a completed
process with exit status and captured (lossily decoded) stdout and stderr. -/
inductive OutRes
  | spawnErr (e : String)
  | out (success : Bool) (stdout stderr : String)
deriving DecidableEq

/-- Environment for one `pull_changes` run: the outcome of every external git
invocation the function might perform.  Each failing stage re-runs its command
through `Command::output()`, so the status-run and the output-run of a stage
are separate entries whose outcomes are independent. -/
structure PullEnv where
  fetch_status : StatusRes
  fetch_output : OutRes
  branch_check_status : StatusRes
  checkout_new_status : StatusRes
  checkout_new_output : OutRes
  checkout_status : StatusRes
  checkout_output : OutRes
  pull_status : StatusRes
  pull_output : OutRes
deriving DecidableEq

/-- The five distinct git commands issued by `pull_changes`. -/
inductive GitCmd
  | fetch
  | branchCheck
  | checkoutNew
  | checkout
  | pull
deriving DecidableEq

/-- Whether a git command was run through `Command::status()` or through
`Command::output()`. -/
inductive Mode
  | status
  | output
deriving DecidableEq

/-- One external git invocation recorded in the trace. -/
structure GitCall where
  cmd : GitCmd
  mode : Mode
deriving DecidableEq

/-- The argument list each git command is invoked with (`src/main.rs` lines
86-92 and 111-232).  The status-run and the output-run of a stage build the
identical argument list. -/
def git_args (c : AppConfig) : GitCmd → List String
  | .fetch => ["-C", c.repo_path, "fetch", "--prune", url_with_credentials c, fetch_refspec]
  | .branchCheck => ["-C", c.repo_path, "rev-parse", "--verify", c.target_branch]
  | .checkoutNew => ["-C", c.repo_path, "checkout", "-b", c.target_branch,
      "--track", "origin/" ++ c.target_branch]
  | .checkout => ["-C", c.repo_path, "checkout", c.target_branch]
  | .pull => ["-C", c.repo_path, "pull", url_with_credentials c, c.target_branch]

/-- Structured log events emitted by the program (the `info` and `error`
macro calls), with the data that the corresponding Rust format string
interpolates. -/
inductive LogEvent
  | fetchedAll
  | fetchFailed (stdout stderr : String)
  | createdBranch
  | branchCreateFailed (stdout stderr : String)
  | checkedOut
  | checkoutFailed (stdout stderr : String)
  | pullOk
  | pullFailed (stdout stderr : String)
  | newChanges
  | statusLine
  | failedRemoteTop (e : String)
  | failedLocalTop (e : String)
  | failedPullTop (e : String)
deriving DecidableEq

/-- The final pull stage of `pull_changes` (`src/main.rs` lines 216-244),
given the trace and log accumulated by the earlier stages.  On a non-zero
exit status the identical command is re-run through `Command::output()` and
its stdout and stderr are logged, but the function then falls through to the
final `Ok(())` — there is no `return Err` in the pull-failure branch. -/
def doPull (env : PullEnv) (t : List GitCall) (l : List LogEvent) :
    Except String Unit × List GitCall × List LogEvent :=
  match env.pull_status with
  | .spawnErr e => (.error e, t ++ [⟨.pull, .status⟩], l)
  | .exit false =>
    match env.pull_output with
    | .spawnErr e => (.error e, t ++ [⟨.pull, .status⟩, ⟨.pull, .output⟩], l)
    | .out _ so se =>
      (.ok (), t ++ [⟨.pull, .status⟩, ⟨.pull, .output⟩], l ++ [.pullFailed so se])
  | .exit true =>
    (.ok (), t ++ [⟨.pull, .status⟩], l ++ [.pullOk])

/-- Embeds `pull_changes` (`src/main.rs` lines 100-245).  Stage order: fetch;
branch existence check (`rev-parse --verify`); then either create-and-track
checkout (branch absent) or plain checkout (branch present); then pull.  Each
stage other than the branch check re-runs its command through
`Command::output()` when the status-run reports failure, and fetch and both
checkout variants return `Err` on failure, aborting the remaining stages. -/
def pull_changes (env : PullEnv) :
    Except String Unit × List GitCall × List LogEvent :=
  match env.fetch_status with
  | .spawnErr e => (.error e, [⟨.fetch, .status⟩], [])
  | .exit false =>
    match env.fetch_output with
    | .spawnErr e => (.error e, [⟨.fetch, .status⟩, ⟨.fetch, .output⟩], [])
    | .out _ so se =>
      (.error "Failed to fetch from remote",
        [⟨.fetch, .status⟩, ⟨.fetch, .output⟩], [.fetchFailed so se])
  | .exit true =>
    match env.branch_check_status with
    | .spawnErr e =>
      (.error e, [⟨.fetch, .status⟩, ⟨.branchCheck, .status⟩], [.fetchedAll])
    | .exit false =>
      match env.checkout_new_status with
      | .spawnErr e =>
        (.error e,
          [⟨.fetch, .status⟩, ⟨.branchCheck, .status⟩, ⟨.checkoutNew, .status⟩],
          [.fetchedAll])
      | .exit false =>
        match env.checkout_new_output with
        | .spawnErr e =>
          (.error e,
            [⟨.fetch, .status⟩, ⟨.branchCheck, .status⟩, ⟨.checkoutNew, .status⟩,
              ⟨.checkoutNew, .output⟩],
            [.fetchedAll])
        | .out _ so se =>
          (.error "Failed to create and checkout branch",
            [⟨.fetch, .status⟩, ⟨.branchCheck, .status⟩, ⟨.checkoutNew, .status⟩,
              ⟨.checkoutNew, .output⟩],
            [.fetchedAll, .branchCreateFailed so se])
      | .exit true =>
        doPull env
          [⟨.fetch, .status⟩, ⟨.branchCheck, .status⟩, ⟨.checkoutNew, .status⟩]
          [.fetchedAll, .createdBranch]
    | .exit true =>
      match env.checkout_status with
      | .spawnErr e =>
        (.error e,
          [⟨.fetch, .status⟩, ⟨.branchCheck, .status⟩, ⟨.checkout, .status⟩],
          [.fetchedAll])
      | .exit false =>
        match env.checkout_output with
        | .spawnErr e =>
          (.error e,
            [⟨.fetch, .status⟩, ⟨.branchCheck, .status⟩, ⟨.checkout, .status⟩,
              ⟨.checkout, .output⟩],
            [.fetchedAll])
        | .out _ so se =>
          (.error "Failed to checkout branch",
            [⟨.fetch, .status⟩, ⟨.branchCheck, .status⟩, ⟨.checkout, .status⟩,
              ⟨.checkout, .output⟩],
            [.fetchedAll, .checkoutFailed so se])
      | .exit true =>
        doPull env
          [⟨.fetch, .status⟩, ⟨.branchCheck, .status⟩, ⟨.checkout, .status⟩]
          [.fetchedAll, .checkedOut]

/-- The scheduler state owned by `main`: the timestamp of the last successful
content change (`last_change_time`, `src/main.rs` line 259). -/
structure SyncState where
  last_change_time : Nat
deriving DecidableEq

/-- Environment for one full reconciliation cycle: the outcome of the remote
query, of the local `rev-parse HEAD`, and of every git invocation that
`pull_changes` might perform. -/
structure CycleEnv where
  remote : RemoteEnv
  localGit : LocalEnv
  pullEnv : PullEnv
deriving DecidableEq

/-- One step of a reconciliation cycle as recorded in its trace: the remote
resolver call, the local inspector call, or an external git invocation. -/
inductive CycleStep
  | resolve
  | inspect
  | git (c : GitCall)
deriving DecidableEq

/-- Which branch of the loop body a cycle ended in. -/
inductive CycleResult
  | upToDate
  | synchronized
  | failedRemote (e : String)
  | failedLocal (e : String)
  | failedPull (e : String)
  | panicked (msg : String)
deriving DecidableEq

/-- Embeds one iteration of the poll loop in `main` (`src/main.rs` lines
261-293): query the remote head, read the local head, and if they differ run
`pull_changes`; `last_change_time` is set to the current time exactly when
`pull_changes` returns `Ok`.  Errors of each step are logged and the loop
proceeds; a panic inside `get_latest_commit` aborts the process. -/
def cycle (env : CycleEnv) (st : SyncState) (now : Nat) :
    CycleResult × SyncState × List CycleStep × List LogEvent :=
  match get_latest_commit env.remote with
  | .panicked m => (.panicked m, st, [.resolve], [])
  | .error e => (.failedRemote e, st, [.resolve], [.failedRemoteTop e])
  | .ok remote_commit =>
    match get_local_commit env.localGit with
    | .error e => (.failedLocal e, st, [.resolve, .inspect], [.failedLocalTop e])
    | .ok local_commit =>
      if remote_commit ≠ local_commit then
        match pull_changes env.pullEnv with
        | (.error e, t, l) =>
          (.failedPull e, st, [.resolve, .inspect] ++ t.map .git,
            [.newChanges] ++ l ++ [.failedPullTop e])
        | (.ok _, t, l) =>
          (.synchronized, ⟨now⟩, [.resolve, .inspect] ++ t.map .git,
            [.newChanges] ++ l)
      else
        (.upToDate, st, [.resolve, .inspect], [.statusLine])

/-- Whether the poll loop reaches its next iteration after a cycle with this
result (only a panic terminates the process). -/
def continuesLoop : CycleResult → Bool
  | .panicked _ => false
  | _ => true

/-- Whether a log contains one of the error events the loop body emits when a
cycle step fails (`src/main.rs` lines 268, 284 and 288). -/
def failureLogged (l : List LogEvent) : Bool :=
  l.any fun ev =>
    match ev with
    | .failedRemoteTop _ => true
    | .failedLocalTop _ => true
    | .failedPullTop _ => true
    | _ => false

/-- Whether the trace of a `pull_changes` run contains an invocation of the
given git command. -/
def hasGit (c : GitCmd) (t : List GitCall) : Bool :=
  t.any fun g => decide (g.cmd = c)

/-- Number of occurrences of exactly the given invocation in a trace. -/
def countCall (g : GitCall) (t : List GitCall) : Nat :=
  (t.filter fun x => decide (x = g)).length

/-- Rank of a cycle step in the prescribed stage order; the two checkout
variants share a rank because exactly one of the two runs in any cycle. -/
def stepRank : CycleStep → Nat
  | .resolve => 0
  | .inspect => 1
  | .git g =>
    match g.cmd with
    | .fetch => 2
    | .branchCheck => 3
    | .checkoutNew => 4
    | .checkout => 4
    | .pull => 5

/-- Whether the stage ranks are non-decreasing along the trace (no stage is
reordered; a repeated rank is the failure re-run of the same stage). -/
def ranksNondecreasing : List CycleStep → Bool
  | [] => true
  | [_] => true
  | a :: b :: t => decide (stepRank a ≤ stepRank b) && ranksNondecreasing (b :: t)

/-- Whether the cycle trace contains the given step. -/
def hasStep (x : CycleStep) (s : List CycleStep) : Bool :=
  s.any fun y => decide (y = x)

/-- Whether the cycle trace contains an invocation of the given git command. -/
def hasCmd (c : GitCmd) (s : List CycleStep) : Bool :=
  s.any fun y =>
    match y with
    | .git g => decide (g.cmd = c)
    | _ => false

/-- Whether every stage present in the trace is accompanied by its prescribed
predecessor stage (no stage is skipped on the way to a later one). -/
def noStageSkipped (s : List CycleStep) : Bool :=
  (!(hasStep .inspect s) || hasStep .resolve s) &&
  (!(hasCmd .fetch s) || hasStep .inspect s) &&
  (!(hasCmd .branchCheck s) || hasCmd .fetch s) &&
  (!(hasCmd .checkoutNew s || hasCmd .checkout s) || hasCmd .branchCheck s) &&
  (!(hasCmd .pull s) || (hasCmd .checkoutNew s || hasCmd .checkout s))

/-- Whether the fetch stage of this pull environment completed successfully. -/
def fetchSucceeded (p : PullEnv) : Bool :=
  match p.fetch_status with
  | .exit true => true
  | _ => false

/-- Whether the resolver and the inspector both succeed and return the same
commit identifier in this environment. -/
def idsAgree (env : CycleEnv) : Bool :=
  match get_latest_commit env.remote, get_local_commit env.localGit with
  | .ok r, .ok l => decide (r = l)
  | _, _ => false

/-- The ordering contract of one reconciliation cycle: the trace starts with
the resolver call, stage ranks never decrease, no stage is skipped, stages
after fetch run only when fetch succeeded, an up-to-date cycle performs
exactly resolve and inspect, and fetch runs only when the identifiers
disagree. -/
def cycleOrderOK (env : CycleEnv) (st : SyncState) (now : Nat) : Bool :=
  match cycle env st now with
  | (_, _, s, _) =>
    decide (s.head? = some .resolve) &&
    ranksNondecreasing s &&
    noStageSkipped s &&
    ((!(hasCmd .branchCheck s || hasCmd .checkoutNew s || hasCmd .checkout s ||
        hasCmd .pull s)) || fetchSucceeded env.pullEnv) &&
    ((!(idsAgree env)) || decide (s = [.resolve, .inspect])) &&
    ((!(hasCmd .fetch s)) || !(idsAgree env))

/-- A pull environment in which every git invocation succeeds and the target
branch already exists locally. -/
def benignPull : PullEnv :=
  ⟨.exit true, .out true "" "", .exit true, .exit true, .out true "" "",
    .exit true, .out true "" "", .exit true, .out true "" ""⟩

/-- A pull environment in which fetch, the branch check and the checkout all
succeed but the final `git pull` exits with a non-zero status; its diagnostic
re-run captures the given stdout and stderr. -/
def pullFailEnv : PullEnv :=
  ⟨.exit true, .out true "" "", .exit true, .exit true, .out true "" "",
    .exit true, .out true "" "", .exit false, .out true "pull-out" "pull-err"⟩

/-- A pull environment in which the fetch stage exits with a non-zero status;
its diagnostic re-run succeeds and captures the given stdout and stderr. -/
def fetchFailEnv : PullEnv :=
  ⟨.exit false, .out true "fetch-out" "fetch-err", .exit true, .exit true,
    .out true "" "", .exit true, .out true "" "", .exit true, .out true "" ""⟩

/-- A cycle environment with remote head `def456`, local head `abc123` and a
failing final pull. -/
def divergedEnv : CycleEnv :=
  ⟨.parsed ⟨[⟨"def456"⟩]⟩, .ran ⟨true, .valid "abc123"⟩, pullFailEnv⟩

/-- A cycle environment whose remote query parses successfully but whose
commit list is empty. -/
def emptyRemoteEnv : CycleEnv :=
  ⟨.parsed ⟨[]⟩, .ran ⟨true, .valid "abc123"⟩, benignPull⟩

/-- C2: the code at the failing input.  A remote response whose `value` array
is empty does not produce a distinct `EmptyHistory` error: `get_latest_commit`
panics with an index-out-of-bounds, the cycle result is a panic that the loop
does not survive, and only the resolve step executed (no recovery stage ran). -/
theorem empty_history_panics :
    get_latest_commit (.parsed ⟨[]⟩) =
        .panicked "index out of bounds: the len is 0 but the index is 0" ∧
      (cycle emptyRemoteEnv ⟨0⟩ 1).1 =
        .panicked "index out of bounds: the len is 0 but the index is 0" ∧
      continuesLoop (cycle emptyRemoteEnv ⟨0⟩ 1).1 = false ∧
      (cycle emptyRemoteEnv ⟨0⟩ 1).2.2.1 = [.resolve] :=
  ⟨rfl, rfl, rfl, rfl⟩

/-- C4: the code at the failing input.  In a recovery run whose pull stage
exits with a non-zero status, `pull_changes` logs the failure but nevertheless
returns `Ok(())`: the recovery outcome surfaced to the caller is a success,
not a failure. -/
theorem pull_failure_reported_as_ok :
    (pull_changes pullFailEnv).1 = Except.ok () ∧
      LogEvent.pullFailed "pull-out" "pull-err" ∈ (pull_changes pullFailEnv).2.2 :=
  ⟨rfl, by decide⟩

/-- C3: the code at the failing input.  In a cycle whose pull stage failed
(and therefore left the local identifier unchanged), `last_change_time` is
nevertheless updated to the current time, because the swallowed pull error
makes `pull_changes` return `Ok`. -/
theorem last_change_time_updated_despite_failed_pull :
    (cycle divergedEnv ⟨0⟩ 7).1 = CycleResult.synchronized ∧
      (cycle divergedEnv ⟨0⟩ 7).2.1 = ⟨7⟩ ∧
      LogEvent.pullFailed "pull-out" "pull-err" ∈ (cycle divergedEnv ⟨0⟩ 7).2.2.2 := by
  decide

/-- C5: the code at the failing input.  A cycle whose pull command failed
still completes its recovery as a success (the `Synchronized`-like branch that
updates `last_change_time`), and the full trace shows that no convergence
confirmation is performed: there is no inspector call and no further git
invocation after the pull, so the local head still differs from the resolver
result obtained at the start of the cycle. -/
theorem synchronized_without_convergence_check :
    cycle divergedEnv ⟨0⟩ 7 =
      (.synchronized, ⟨7⟩,
        [.resolve, .inspect, .git ⟨.fetch, .status⟩, .git ⟨.branchCheck, .status⟩,
          .git ⟨.checkout, .status⟩, .git ⟨.pull, .status⟩, .git ⟨.pull, .output⟩],
        [.newChanges, .fetchedAll, .checkedOut, .pullFailed "pull-out" "pull-err"]) := by
  decide

/-- C8: counterexample to the claim as stated.  An invocation of the local
inspector in which `git rev-parse HEAD` runs but does not succeed (exit
status unsuccessful, as on a path that is not a repository) still returns a
successful commit identifier, namely the trimmed (here empty) stdout, rather
than a `LocalInspectionError` failure. -/
theorem inspector_ok_on_failed_rev_parse :
    (CmdOutput.mk false (.valid "")).success = false ∧
      get_local_commit (.ran ⟨false, .valid ""⟩) = Except.ok "" :=
  ⟨rfl, rfl⟩

/-- C8 (amended): the inspector fails with an error exactly when the
underlying tool invocation cannot be launched or its stdout is not valid
UTF-8; whenever the tool runs to completion it returns a successful
identifier, the trimmed captured stdout, regardless of the exit status. -/
theorem get_local_commit_spec (e s : String) (b : Bool) :
    get_local_commit (.spawnErr e) = .error e ∧
      get_local_commit (.ran ⟨b, .invalid⟩) = .error "invalid utf-8 sequence" ∧
      get_local_commit (.ran ⟨b, .valid s⟩) = .ok (rustTrim s) :=
  ⟨rfl, rfl, rfl⟩

/-- C1: an error of the remote query, an error of the local identifier
inspection, or an error returned by the recovery run (each of these is the
`Err`-return of the corresponding function, covering network failures,
malformed responses that fail to deserialize, and tool invocations that fail)
never terminates the process: the cycle ends in the corresponding failure
result, the loop proceeds to its next iteration, `last_change_time` is left
unchanged, and the failure is logged at the loop boundary. -/
theorem cycle_failure_never_terminates (env : CycleEnv) (st : SyncState) (now : Nat)
    (h : (∃ e, get_latest_commit env.remote = .error e) ∨
      (∃ r e, get_latest_commit env.remote = .ok r ∧
        get_local_commit env.localGit = .error e) ∨
      (∃ r l e, get_latest_commit env.remote = .ok r ∧
        get_local_commit env.localGit = .ok l ∧ r ≠ l ∧
        (pull_changes env.pullEnv).1 = .error e)) :
    continuesLoop (cycle env st now).1 = true ∧
      (cycle env st now).2.1 = st ∧
      failureLogged (cycle env st now).2.2.2 = true := by
  rcases h with ⟨e, he⟩ | ⟨r, e, hr, he⟩ | ⟨r, l, e, hr, hl, hne, hp⟩
  · simp [cycle, he, continuesLoop, failureLogged]
  · simp [cycle, hr, he, continuesLoop, failureLogged]
  · rcases hpc : pull_changes env.pullEnv with ⟨pr, pt, pl⟩
    rw [hpc] at hp
    simp only at hp
    subst hp
    simp [cycle, hr, hl, hne, hpc, continuesLoop, failureLogged]

/-- C1 witness: a concrete cycle whose remote query fails with a network
error leaves the loop running, the state unchanged and the failure logged. -/
theorem cycle_failure_never_terminates_witness :
    continuesLoop
        (cycle ⟨.sendErr "connection refused", .ran ⟨true, .valid "abc123"⟩, benignPull⟩
          ⟨5⟩ 9).1 = true ∧
      (cycle ⟨.sendErr "connection refused", .ran ⟨true, .valid "abc123"⟩, benignPull⟩
          ⟨5⟩ 9).2.1 = ⟨5⟩ ∧
      failureLogged
        (cycle ⟨.sendErr "connection refused", .ran ⟨true, .valid "abc123"⟩, benignPull⟩
          ⟨5⟩ 9).2.2.2 = true :=
  cycle_failure_never_terminates _ _ _ (Or.inl ⟨"connection refused", rfl⟩)

/-- C9: whenever the resolver and the inspector succeed with equal
identifiers, the cycle ends in the up-to-date branch with the scheduler state
unchanged, its trace is exactly the resolve and inspect steps, and no git
invocation (hence no mutation of the working copy) occurs. -/
theorem equal_ids_up_to_date (env : CycleEnv) (st : SyncState) (now : Nat)
    (r l : String)
    (hr : get_latest_commit env.remote = .ok r)
    (hl : get_local_commit env.localGit = .ok l)
    (heq : r = l) :
    cycle env st now = (.upToDate, st, [.resolve, .inspect], [.statusLine]) ∧
      ∀ g : GitCall, CycleStep.git g ∉ (cycle env st now).2.2.1 := by
  subst heq
  have hc : cycle env st now = (.upToDate, st, [.resolve, .inspect], [.statusLine]) := by
    simp [cycle, hr, hl]
  refine ⟨hc, fun g => ?_⟩
  rw [hc]
  simp

/-- C9 witness: a concrete cycle with equal remote and local heads returns
the up-to-date result with state, trace and log as stated. -/
theorem equal_ids_up_to_date_witness :
    cycle ⟨.parsed ⟨[⟨"abc123"⟩]⟩, .ran ⟨true, .valid "abc123"⟩, benignPull⟩ ⟨3⟩ 4 =
      (.upToDate, ⟨3⟩, [.resolve, .inspect], [.statusLine]) :=
  (equal_ids_up_to_date
    ⟨.parsed ⟨[⟨"abc123"⟩]⟩, .ran ⟨true, .valid "abc123"⟩, benignPull⟩
    ⟨3⟩ 4 "abc123" (rustTrim "abc123") rfl rfl (by decide)).1

/-- C7: in every recovery run that passes the fetch stage, the branch
existence check of that run is performed, and exactly one of the two
branch-resolution paths is taken according to the outcome of that (per-run,
never cached) check: an absent branch takes the create-and-track path and
never the plain checkout, a present branch takes the plain checkout and never
the creation path. -/
theorem branch_resolution_exclusive (p : PullEnv)
    (hf : p.fetch_status = .exit true) :
    (p.branch_check_status = .exit false →
        hasGit .branchCheck (pull_changes p).2.1 = true ∧
        hasGit .checkoutNew (pull_changes p).2.1 = true ∧
        hasGit .checkout (pull_changes p).2.1 = false) ∧
      (p.branch_check_status = .exit true →
        hasGit .branchCheck (pull_changes p).2.1 = true ∧
        hasGit .checkout (pull_changes p).2.1 = true ∧
        hasGit .checkoutNew (pull_changes p).2.1 = false) := by
  obtain ⟨fs, fo, bs, cns, cno, cs, co, ps, po⟩ := p
  simp only at hf
  subst hf
  constructor
  · intro hb
    simp only at hb
    subst hb
    rcases cns with e | b
    · simp [pull_changes, hasGit]
    · cases b
      · rcases cno with e | ⟨b2, so2, se2⟩ <;> simp [pull_changes, hasGit]
      · rcases ps with e | b2
        · simp [pull_changes, doPull, hasGit]
        · cases b2
          · rcases po with e | ⟨b3, so3, se3⟩ <;> simp [pull_changes, doPull, hasGit]
          · simp [pull_changes, doPull, hasGit]
  · intro hb
    simp only at hb
    subst hb
    rcases cs with e | b
    · simp [pull_changes, hasGit]
    · cases b
      · rcases co with e | ⟨b2, so2, se2⟩ <;> simp [pull_changes, hasGit]
      · rcases ps with e | b2
        · simp [pull_changes, doPull, hasGit]
        · cases b2
          · rcases po with e | ⟨b3, so3, se3⟩ <;> simp [pull_changes, doPull, hasGit]
          · simp [pull_changes, doPull, hasGit]

/-- C7 witness: in a concrete run whose fetch succeeds and whose target
branch exists locally, the branch check runs and the plain-checkout path is
taken while the creation path is not. -/
theorem branch_resolution_exclusive_witness :
    hasGit .branchCheck (pull_changes benignPull).2.1 = true ∧
      hasGit .checkout (pull_changes benignPull).2.1 = true ∧
      hasGit .checkoutNew (pull_changes benignPull).2.1 = false :=
  (branch_resolution_exclusive benignPull rfl).2 rfl

/-- C10: whenever the status-run of the fetch, branch-creation, checkout or
pull command reports a non-zero exit, the identical command is executed a
second time through `Command::output()` — the trace holds exactly one
status-mode and one output-mode invocation of that command — and the
diagnostics logged for the failure are the stdout and stderr captured by that
second invocation, whose exit status `b` is arbitrary (the second outcome may
differ from the first and is ignored). -/
theorem failed_stage_runs_twice (p : PullEnv) (b : Bool) (so se : String) :
    (p.fetch_status = .exit false → p.fetch_output = .out b so se →
        countCall ⟨.fetch, .status⟩ (pull_changes p).2.1 = 1 ∧
        countCall ⟨.fetch, .output⟩ (pull_changes p).2.1 = 1 ∧
        LogEvent.fetchFailed so se ∈ (pull_changes p).2.2) ∧
      (p.fetch_status = .exit true → p.branch_check_status = .exit false →
        p.checkout_new_status = .exit false → p.checkout_new_output = .out b so se →
        countCall ⟨.checkoutNew, .status⟩ (pull_changes p).2.1 = 1 ∧
        countCall ⟨.checkoutNew, .output⟩ (pull_changes p).2.1 = 1 ∧
        LogEvent.branchCreateFailed so se ∈ (pull_changes p).2.2) ∧
      (p.fetch_status = .exit true → p.branch_check_status = .exit true →
        p.checkout_status = .exit false → p.checkout_output = .out b so se →
        countCall ⟨.checkout, .status⟩ (pull_changes p).2.1 = 1 ∧
        countCall ⟨.checkout, .output⟩ (pull_changes p).2.1 = 1 ∧
        LogEvent.checkoutFailed so se ∈ (pull_changes p).2.2) ∧
      (p.fetch_status = .exit true →
        ((p.branch_check_status = .exit false ∧ p.checkout_new_status = .exit true) ∨
          (p.branch_check_status = .exit true ∧ p.checkout_status = .exit true)) →
        p.pull_status = .exit false → p.pull_output = .out b so se →
        countCall ⟨.pull, .status⟩ (pull_changes p).2.1 = 1 ∧
        countCall ⟨.pull, .output⟩ (pull_changes p).2.1 = 1 ∧
        LogEvent.pullFailed so se ∈ (pull_changes p).2.2) := by
  obtain ⟨fs, fo, bs, cns, cno, cs, co, ps, po⟩ := p
  refine ⟨?_, ?_, ?_, ?_⟩
  · intro h1 h2
    simp only at h1 h2
    subst h1
    subst h2
    exact ⟨rfl, rfl, by simp [pull_changes]⟩
  · intro h1 h2 h3 h4
    simp only at h1 h2 h3 h4
    subst h1; subst h2; subst h3; subst h4
    exact ⟨rfl, rfl, by simp [pull_changes]⟩
  · intro h1 h2 h3 h4
    simp only at h1 h2 h3 h4
    subst h1; subst h2; subst h3; subst h4
    exact ⟨rfl, rfl, by simp [pull_changes]⟩
  · intro h1 h2 h3 h4
    simp only at h1 h3 h4
    subst h1; subst h3; subst h4
    rcases h2 with ⟨hb, hc⟩ | ⟨hb, hc⟩ <;> simp only at hb hc <;> subst hb <;> subst hc
    · exact ⟨rfl, rfl, by simp [pull_changes, doPull]⟩
    · exact ⟨rfl, rfl, by simp [pull_changes, doPull]⟩

/-- C10 witness: in a concrete run whose fetch status-run fails, the fetch
command appears once in status mode and once in output mode, and the
diagnostics logged come from the output-mode re-run (which here succeeded,
differing from the first outcome). -/
theorem failed_stage_runs_twice_witness :
    countCall ⟨.fetch, .status⟩ (pull_changes fetchFailEnv).2.1 = 1 ∧
      countCall ⟨.fetch, .output⟩ (pull_changes fetchFailEnv).2.1 = 1 ∧
      LogEvent.fetchFailed "fetch-out" "fetch-err" ∈ (pull_changes fetchFailEnv).2.2 :=
  (failed_stage_runs_twice fetchFailEnv true "fetch-out" "fetch-err").1 rfl rfl

/-- C6: for every environment, the reconciliation cycle satisfies the full
ordering contract: the trace begins with the resolver call, stage ranks never
decrease (Resolve, Inspect, Fetch, Branch-resolve, Checkout-or-create, Pull),
no stage is skipped, any stage after fetch runs only when fetch succeeded
(a fetch failure is terminal for the cycle), an up-to-date cycle performs
exactly resolve and inspect, and fetch runs only when the identifiers
disagree. -/
theorem cycle_stage_order (env : CycleEnv) (st : SyncState) (now : Nat) :
    cycleOrderOK env st now = true := by
  obtain ⟨re, le, pe⟩ := env
  obtain ⟨fs, fo, bs, cns, cno, cs, co, ps, po⟩ := pe
  rcases re with e | e | e | ⟨vs⟩
  · rfl
  · rfl
  · rfl
  · rcases vs with _ | ⟨c, rest⟩
    · rfl
    · rcases le with e | ⟨lb, sb⟩
      · rfl
      · rcases sb with s | _
        · by_cases h : c.commit_id = rustTrim s
          · simp [cycleOrderOK, cycle, get_latest_commit, get_local_commit, idsAgree,
              fetchSucceeded, ranksNondecreasing, noStageSkipped, hasStep, hasCmd,
              stepRank, h]
          · rcases fs with e2 | fb
            · simp [cycleOrderOK, cycle, pull_changes, doPull, get_latest_commit,
                get_local_commit, idsAgree, fetchSucceeded, ranksNondecreasing,
                noStageSkipped, hasStep, hasCmd, stepRank, h]
            · cases fb
              · rcases fo with e3 | ⟨b3, so3, se3⟩ <;>
                  simp [cycleOrderOK, cycle, pull_changes, doPull, get_latest_commit,
                    get_local_commit, idsAgree, fetchSucceeded, ranksNondecreasing,
                    noStageSkipped, hasStep, hasCmd, stepRank, h]
              · rcases bs with e3 | bb
                · simp [cycleOrderOK, cycle, pull_changes, doPull, get_latest_commit,
                    get_local_commit, idsAgree, fetchSucceeded, ranksNondecreasing,
                    noStageSkipped, hasStep, hasCmd, stepRank, h]
                · cases bb
                  · rcases cns with e4 | cb
                    · simp [cycleOrderOK, cycle, pull_changes, doPull, get_latest_commit,
                        get_local_commit, idsAgree, fetchSucceeded, ranksNondecreasing,
                        noStageSkipped, hasStep, hasCmd, stepRank, h]
                    · cases cb
                      · rcases cno with e5 | ⟨b5, so5, se5⟩ <;>
                          simp [cycleOrderOK, cycle, pull_changes, doPull,
                            get_latest_commit, get_local_commit, idsAgree,
                            fetchSucceeded, ranksNondecreasing, noStageSkipped,
                            hasStep, hasCmd, stepRank, h]
                      · rcases ps with e5 | pb
                        · simp [cycleOrderOK, cycle, pull_changes, doPull,
                            get_latest_commit, get_local_commit, idsAgree,
                            fetchSucceeded, ranksNondecreasing, noStageSkipped,
                            hasStep, hasCmd, stepRank, h]
                        · cases pb
                          · rcases po with e6 | ⟨b6, so6, se6⟩ <;>
                              simp [cycleOrderOK, cycle, pull_changes, doPull,
                                get_latest_commit, get_local_commit, idsAgree,
                                fetchSucceeded, ranksNondecreasing, noStageSkipped,
                                hasStep, hasCmd, stepRank, h]
                          · simp [cycleOrderOK, cycle, pull_changes, doPull,
                              get_latest_commit, get_local_commit, idsAgree,
                              fetchSucceeded, ranksNondecreasing, noStageSkipped,
                              hasStep, hasCmd, stepRank, h]
                  · rcases cs with e4 | cb
                    · simp [cycleOrderOK, cycle, pull_changes, doPull, get_latest_commit,
                        get_local_commit, idsAgree, fetchSucceeded, ranksNondecreasing,
                        noStageSkipped, hasStep, hasCmd, stepRank, h]
                    · cases cb
                      · rcases co with e5 | ⟨b5, so5, se5⟩ <;>
                          simp [cycleOrderOK, cycle, pull_changes, doPull,
                            get_latest_commit, get_local_commit, idsAgree,
                            fetchSucceeded, ranksNondecreasing, noStageSkipped,
                            hasStep, hasCmd, stepRank, h]
                      · rcases ps with e5 | pb
                        · simp [cycleOrderOK, cycle, pull_changes, doPull,
                            get_latest_commit, get_local_commit, idsAgree,
                            fetchSucceeded, ranksNondecreasing, noStageSkipped,
                            hasStep, hasCmd, stepRank, h]
                        · cases pb
                          · rcases po with e6 | ⟨b6, so6, se6⟩ <;>
                              simp [cycleOrderOK, cycle, pull_changes, doPull,
                                get_latest_commit, get_local_commit, idsAgree,
                                fetchSucceeded, ranksNondecreasing, noStageSkipped,
                                hasStep, hasCmd, stepRank, h]
                          · simp [cycleOrderOK, cycle, pull_changes, doPull,
                              get_latest_commit, get_local_commit, idsAgree,
                              fetchSucceeded, ranksNondecreasing, noStageSkipped,
                              hasStep, hasCmd, stepRank, h]
        · rfl

end RepoSync
